import Mathlib

/-!
Verification development for the rust-nvr repository (src/main.rs, src/web.rs,
src/rtsp.rs): a multi-stream frame broadcaster that relays encoded JPEG frames
from RTSP ingest pipelines to WebSocket viewers.

The embedding models:
* the `tokio::sync::broadcast` channel that `main.rs` creates with
  `broadcast::channel(100)` and that plays the role of the spec's Broadcaster
  (history-based model: `history` is the ghost list of all stored sends, the
  ring is its last `capacity` entries, a receiver is a cursor into `history`);
* the clients registry `HashMap<String, Vec<Sender>>` built in `main` from the
  `CCTV_*` environment variables (association list with exact-key replacement,
  matching `HashMap::insert`; a sender is abstracted as its registration index);
* the lookup/subscribe phase of `handle_ws_client` (identical in `main.rs`
  lines 210-241 and `web.rs` lines 13-39);
* the outgoing pump loops of the two `handle_ws_client` drafts, which differ:
  `main.rs` (lines 254-261) uses `while let Ok(..) = rx.recv().await` and so
  exits its loop on any `Err`, including `Lagged`, while `web.rs`
  (lines 51-67) matches on `Lagged(n)` and continues; `web.rs` (line 41) also
  sends an initial text greeting that `main.rs` does not send;
* the ingest `new_sample` callback of `setup_pipeline` (`rtsp.rs` lines 45-79,
  duplicated in `main.rs` lines 134-171), which returns `Ok(FlowSuccess::Ok)`
  on every control path;
* the session task structure (`tokio::spawn` twice, then `tokio::select!` on
  the two `JoinHandle`s): per tokio's documented semantics, awaiting one
  handle in `select!` and then dropping the other DETACHES the losing task
  rather than aborting it, so the step relation lets a task keep stepping
  after the parent has returned.
-/

namespace RustNvr

/-- One encoded frame: the `Vec<u8>` JPEG payload produced by the pipeline. -/
abbrev Frame := List Nat

/-- Model of the `tokio::sync::broadcast` channel created by `main.rs` line 53
(`broadcast::channel(100)`). `history` is the ghost sequence of all frames
stored so far (the ring consists of its last `capacity` entries), `receivers`
the number of live `Receiver` handles, `closed` whether every `Sender` has
been dropped. -/
structure Broadcaster where
  capacity : Nat
  history : List Frame
  receivers : Nat
  closed : Bool
  deriving DecidableEq, Repr

/-- `Sender::send`: stores the value in the ring (evicting the oldest entry
once `capacity` values are buffered) and returns the receiver count, or an
error, without storing, when no receiver exists. Never blocks. -/
def send (b : Broadcaster) (f : Frame) : Broadcaster × Except Unit Nat :=
  if b.receivers = 0 then (b, Except.error ())
  else ({ b with history := b.history ++ [f] }, Except.ok b.receivers)

/-- `Sender::subscribe` (`main.rs` line 226): a fresh receiver whose cursor
sits at the current end of the history, so it has no backlog. -/
def subscribe (b : Broadcaster) : Broadcaster × Nat :=
  ({ b with receivers := b.receivers + 1 }, b.history.length)

/-- Possible outcomes of `Receiver::recv().await`. `pending` stands for the
call suspending because no new value is buffered yet. -/
inductive RecvOut where
  | frame (f : Frame)
  | lagged (n : Nat)
  | closedChan
  | pending
  deriving DecidableEq, Repr

/-- `Receiver::recv` at cursor `c`: yields the next stored frame in publish
order; if the cursor has been overrun by more than `capacity` frames it
yields `Lagged` with the number of missed frames and repositions the cursor
at the oldest retained frame; yields `closedChan` after the channel closes
and all buffered frames are consumed, and `pending` when it would suspend. -/
def recv (b : Broadcaster) (c : Nat) : RecvOut × Nat :=
  if c < b.history.length then
    if b.capacity < b.history.length - c then
      (RecvOut.lagged (b.history.length - b.capacity - c), b.history.length - b.capacity)
    else
      (RecvOut.frame (b.history.getD c []), c + 1)
  else if b.closed then (RecvOut.closedChan, c)
  else (RecvOut.pending, c)

/-- Repeated `send` calls, as issued by the single ingest pipeline thread. -/
def publishAll (b : Broadcaster) (fs : List Frame) : Broadcaster :=
  fs.foldl (fun acc f => (send acc f).1) b

/-- `n` consecutive `recv` calls from one receiver, threading the cursor. -/
def recvList : Broadcaster → Nat → Nat → List RecvOut
  | _, _, 0 => []
  | b, c, Nat.succ n => (recv b c).1 :: recvList b (recv b c).2 n

/-- Control paths through the `new_sample` closure of `setup_pipeline`
(`rtsp.rs` lines 47-77): `pull_sample` may fail, the sample may carry no
buffer, mapping the buffer may fail, or a frame payload is obtained. -/
inductive SampleOutcome where
  | pullFailed
  | noBuffer
  | mapFailed
  | sample (data : Frame)
  deriving DecidableEq, Repr

/-- The GStreamer flow return value of the callback: `Ok(FlowSuccess::Ok)` or
an error return (which the closure never takes). -/
inductive Flow where
  | ok
  | flowError
  deriving DecidableEq, Repr

/-- The `new_sample` callback body (`rtsp.rs` lines 47-77, `main.rs` lines
136-169): on every failure path it logs and returns `Ok`; on a frame it calls
`tx.send(map.to_vec())`, ignores the result (`sent.map(..).unwrap_or(0)` is
only printed), and returns `Ok`. -/
def new_sample (b : Broadcaster) (o : SampleOutcome) : Broadcaster × Flow :=
  match o with
  | SampleOutcome.pullFailed => (b, Flow.ok)
  | SampleOutcome.noBuffer => (b, Flow.ok)
  | SampleOutcome.mapFailed => (b, Flow.ok)
  | SampleOutcome.sample d => ((send b d).1, Flow.ok)

/-- The clients registry value type: each stream name maps to the
`Vec<broadcast::Sender>` stored for it, a sender abstracted as its
registration index. -/
abbrev ClientsMap := List (String × List Nat)

/-- `HashMap::insert` on the association-list view: replaces the value of an
entry with exactly equal key, otherwise adds a new entry. -/
def mapInsert (m : ClientsMap) (k : String) (v : List Nat) : ClientsMap :=
  if m.any (fun kv => kv.1 == k) then
    m.map (fun kv => if kv.1 == k then (k, v) else kv)
  else m ++ [(k, v)]

/-- `str::starts_with`, modelled on the character sequence. -/
def strStartsWith (s p : String) : Bool :=
  s.data.take p.data.length == p.data

/-- The stream-name selection of `main` (lines 36-41): keep environment
variables whose key starts with `CCTV_` but not `CCTV_CRED_`. -/
def envStreamNames (vars : List (String × String)) : List String :=
  ((vars.filter (fun kv =>
      strStartsWith kv.1 "CCTV_" && !(strStartsWith kv.1 "CCTV_CRED_"))).map
    (fun kv => kv.1))

/-- The registration loop of `main` (lines 49-57): for each stream name a
broadcast channel is created and `clients.insert(name, vec![tx.clone()])`
stores a singleton sender vector; the `i`-th registration's sender is
abstracted as the index `i`. -/
def register_streams (names : List String) : ClientsMap :=
  (names.foldl (fun (acc : ClientsMap × Nat) n =>
      (mapInsert acc.1 n [acc.2], acc.2 + 1)) ([], 0)).1

/-- `clients_lock.get(&key)` for an exact key. -/
def lookupExact (m : ClientsMap) (k : String) : Option (List Nat) :=
  (m.find? (fun kv => kv.1 == k)).map (fun kv => kv.2)

/-- ASCII case folding of one character, as `str::to_lowercase` acts on the
ASCII stream names this program uses. -/
def lowerChar (c : Char) : Char :=
  if 65 ≤ c.toNat ∧ c.toNat ≤ 90 then Char.ofNat (c.toNat + 32) else c

/-- `str::to_lowercase`, modelled character-wise (the program's stream names
and queries are ASCII). -/
def toLowerStr (s : String) : String :=
  ⟨s.data.map lowerChar⟩

/-- The case-insensitive key search of `handle_ws_client` (`main.rs` lines
217-219, `web.rs` lines 16-18): the first registered key whose lowercase form
equals the query's lowercase form. -/
def find_stream_key (m : ClientsMap) (q : String) : Option String :=
  (m.map (fun kv => kv.1)).find? (fun k => toLowerStr k == toLowerStr q)

/-- Result of the lookup/subscribe phase of `handle_ws_client`: subscribed to
a sender, or one of the three rejection paths (`senders.first()` empty,
`clients_lock.get(&key)` missing, or no case-insensitive match), each of
which returns from the handler without creating a session. -/
inductive SubscribeOutcome where
  | subscribed (key : String) (sender : Nat)
  | noSenders (key : String)
  | keyVanished (key : String)
  | notFound
  deriving DecidableEq, Repr

/-- Whether an outcome is one of the two rejection paths that fire only when
a FOUND stream key has no usable sender vector (`senders.first()` empty, or
`clients_lock.get(&key)` unexpectedly missing). -/
def SubscribeOutcome.isSenderMissing : SubscribeOutcome → Bool
  | SubscribeOutcome.noSenders _ => true
  | SubscribeOutcome.keyVanished _ => true
  | _ => false

/-- The lookup/subscribe phase of `handle_ws_client` (`main.rs` lines
210-241, textually identical in `web.rs` lines 13-39). -/
def subscribe_phase (m : ClientsMap) (q : String) : SubscribeOutcome :=
  match find_stream_key m q with
  | some key =>
    match lookupExact m key with
    | some senders =>
      match senders.head? with
      | some s => SubscribeOutcome.subscribed key s
      | none => SubscribeOutcome.noSenders key
    | none => SubscribeOutcome.keyVanished key
  | none => SubscribeOutcome.notFound

/-- One outcome of `rx.recv().await` as seen by the outgoing pump loops. -/
inductive RecvEvent where
  | frame (f : Frame)
  | lagged (n : Nat)
  | closedChan
  deriving DecidableEq, Repr

/-- Whether an event is the `Lagged` error. -/
def RecvEvent.isLagged : RecvEvent → Bool
  | RecvEvent.lagged _ => true
  | _ => false

/-- An outbound WebSocket message: `Message::binary(..)` or
`Message::text(..)`. -/
inductive Msg where
  | binary (payload : Frame)
  | text (s : String)
  deriving DecidableEq, Repr

/-- Whether a message is a binary message. -/
def Msg.isBinary : Msg → Bool
  | Msg.binary _ => true
  | Msg.text _ => false

/-- The outgoing pump of `main.rs` `handle_ws_client` (lines 254-261):
`while let Ok(jpeg_data) = rx.recv().await { .. }`, so ANY `Err` — `Lagged`
included — ends the loop; each frame is written with
`ws_tx.send(Message::binary(..))` and a write failure breaks. `wok i` gives
the success of the `i`-th write on the transport; the returned list records
every attempted write. -/
def main_outgoing (wok : Nat → Bool) : List RecvEvent → Nat → List Msg
  | [], _ => []
  | RecvEvent.frame f :: rest, i =>
    Msg.binary f :: (if wok i then main_outgoing wok rest (i + 1) else [])
  | RecvEvent.lagged _ :: _, _ => []
  | RecvEvent.closedChan :: _, _ => []

/-- The outgoing pump of `web.rs` `handle_ws_client` (lines 51-67): a frame
is written as binary (a write failure breaks), `Lagged(n)` is logged and the
loop continues, any other `Err` breaks. -/
def web_outgoing (wok : Nat → Bool) : List RecvEvent → Nat → List Msg
  | [], _ => []
  | RecvEvent.frame f :: rest, i =>
    Msg.binary f :: (if wok i then web_outgoing wok rest (i + 1) else [])
  | RecvEvent.lagged _ :: rest, i => web_outgoing wok rest i
  | RecvEvent.closedChan :: _, _ => []

/-- All messages the `main.rs` session writes to the viewer transport. -/
def main_session_msgs (wok : Nat → Bool) (evs : List RecvEvent) : List Msg :=
  main_outgoing wok evs 0

/-- All messages the `web.rs` session writes to the viewer transport: first
the `Message::text("Connected to stream")` greeting of line 41 (its result is
discarded by `let _ =`), then the pump's binary frames; the greeting consumes
write index 0. -/
def web_session_msgs (wok : Nat → Bool) (evs : List RecvEvent) : List Msg :=
  Msg.text "Connected to stream" :: web_outgoing wok evs 1

/-- The incoming monitor of `main.rs` (lines 244-251): reads inbound results
(`true` = `Ok`, ignored) until an `Err` or end of stream; returns the number
of reads performed. -/
def main_incoming : List Bool → Nat
  | [] => 0
  | true :: rest => main_incoming rest + 1
  | false :: _ => 1

/-- The incoming monitor of `web.rs` (lines 43-49), same loop. -/
def web_incoming : List Bool → Nat
  | [] => 0
  | true :: rest => web_incoming rest + 1
  | false :: _ => 1

/-- Runtime state of one `handle_ws_client` session after the subscribe
phase: the two spawned tasks (incoming monitor over the remaining inbound
read results, outgoing pump over the remaining channel outcomes, with the
messages written so far) and whether the parent, which runs
`tokio::select!` over the two `JoinHandle`s, has returned. -/
structure SessState where
  inEvents : List Bool
  recvEvents : List RecvEvent
  wIdx : Nat
  sent : List Msg
  incomingDone : Bool
  outgoingDone : Bool
  returned : Bool
  deriving DecidableEq, Repr

/-- Interleaved small-step semantics of the session of `main.rs`
`handle_ws_client` (lines 244-270; `web.rs` lines 43-75 has the same
spawn/spawn/select structure). Task rules follow the two loop bodies. The
parent rule follows `tokio::select!` over two `JoinHandle`s: it fires once
either task has finished and only sets `returned` — per tokio's semantics,
dropping the losing `JoinHandle` detaches that task, and no `abort` is
called, so no rule is guarded on `returned` and no rule stops the other
task. -/
inductive SessStep (wok : Nat → Bool) : SessState → SessState → Prop where
  | incoming_ok : ∀ s rest, s.incomingDone = false → s.inEvents = true :: rest →
      SessStep wok s { s with inEvents := rest }
  | incoming_err : ∀ s rest, s.incomingDone = false → s.inEvents = false :: rest →
      SessStep wok s { s with inEvents := rest, incomingDone := true }
  | incoming_end : ∀ s, s.incomingDone = false → s.inEvents = [] →
      SessStep wok s { s with incomingDone := true }
  | outgoing_frame : ∀ s f rest, s.outgoingDone = false →
      s.recvEvents = RecvEvent.frame f :: rest →
      SessStep wok s
        { s with
          recvEvents := rest
          wIdx := s.wIdx + 1
          sent := s.sent ++ [Msg.binary f]
          outgoingDone := !(wok s.wIdx) }
  | outgoing_lagged : ∀ s n rest, s.outgoingDone = false →
      s.recvEvents = RecvEvent.lagged n :: rest →
      SessStep wok s { s with recvEvents := rest, outgoingDone := true }
  | outgoing_closed : ∀ s rest, s.outgoingDone = false →
      s.recvEvents = RecvEvent.closedChan :: rest →
      SessStep wok s { s with recvEvents := rest, outgoingDone := true }
  | parent_return : ∀ s, s.returned = false →
      (s.incomingDone = true ∨ s.outgoingDone = true) →
      SessStep wok s { s with returned := true }

/-! ### Helper lemmas (shared) -/

/-- Every message the `main.rs` pump writes is binary. -/
theorem main_outgoing_all_binary (wok : Nat → Bool) :
    ∀ (evs : List RecvEvent) (i : Nat) (m : Msg),
      m ∈ main_outgoing wok evs i → Msg.isBinary m = true := by
  intro evs
  induction evs with
  | nil => intro i m hm; simp [main_outgoing] at hm
  | cons e rest ih =>
    intro i m hm
    cases e with
    | frame f =>
      simp only [main_outgoing, List.mem_cons] at hm
      rcases hm with h | h
      · subst h; rfl
      · by_cases hw : wok i
        · simp only [hw, if_true] at h; exact ih (i + 1) m h
        · simp only [hw, if_false] at h; simp at h
    | lagged n => simp [main_outgoing] at hm
    | closedChan => simp [main_outgoing] at hm

/-- Every message the `web.rs` pump writes is binary. -/
theorem web_outgoing_all_binary (wok : Nat → Bool) :
    ∀ (evs : List RecvEvent) (i : Nat) (m : Msg),
      m ∈ web_outgoing wok evs i → Msg.isBinary m = true := by
  intro evs
  induction evs with
  | nil => intro i m hm; simp [web_outgoing] at hm
  | cons e rest ih =>
    intro i m hm
    cases e with
    | frame f =>
      simp only [web_outgoing, List.mem_cons] at hm
      rcases hm with h | h
      · subst h; rfl
      · by_cases hw : wok i
        · simp only [hw, if_true] at h; exact ih (i + 1) m h
        · simp only [hw, if_false] at h; simp at h
    | lagged n => exact ih i m (by simpa [web_outgoing] using hm)
    | closedChan => simp [web_outgoing] at hm

/-- On event sequences without a `Lagged` outcome the two pump loops agree
step for step. -/
theorem web_outgoing_eq_main_outgoing (wok : Nat → Bool) :
    ∀ (evs : List RecvEvent) (i : Nat),
      evs.all (fun e => !(RecvEvent.isLagged e)) = true →
      web_outgoing wok evs i = main_outgoing wok evs i := by
  intro evs
  induction evs with
  | nil => intro i _; rfl
  | cons e rest ih =>
    intro i hall
    simp only [List.all_cons, Bool.and_eq_true] at hall
    cases e with
    | frame f =>
      simp only [web_outgoing, main_outgoing]
      by_cases hw : wok i
      · simp [hw, ih (i + 1) hall.2]
      · simp [hw]
    | lagged n => simp [RecvEvent.isLagged] at hall
    | closedChan => rfl

/-- Shifting the write index by one is the same as shifting the
write-success oracle. -/
theorem main_outgoing_shift (wok : Nat → Bool) :
    ∀ (evs : List RecvEvent) (i : Nat),
      main_outgoing wok evs (i + 1) =
        main_outgoing (fun j => wok (j + 1)) evs i := by
  intro evs
  induction evs with
  | nil => intro i; rfl
  | cons e rest ih =>
    intro i
    cases e with
    | frame f =>
      simp only [main_outgoing]
      by_cases hw : wok (i + 1)
      · simp [hw, ih (i + 1)]
      · simp [hw]
    | lagged n => rfl
    | closedChan => rfl

/-! ### C1 — lag handling in the outgoing pump -/

/-- C1 counterexample: the claim says every outgoing pump skips a
`Lagged(n)` outcome and keeps delivering from the next call onward. The
`main.rs` pump, run on a `Lagged` outcome followed by a frame with all
transport writes succeeding, delivers nothing (its `while let Ok` loop ends
on the `Lagged` error); continuing, as the `web.rs` pump does, would deliver
the frame. -/
theorem claim1_counterexample_main_pump_stops_on_lag :
    main_outgoing (fun _ => true) [RecvEvent.lagged 5, RecvEvent.frame [1]] 0
        = [] ∧
    web_outgoing (fun _ => true) [RecvEvent.lagged 5, RecvEvent.frame [1]] 0
        = [Msg.binary [1]] :=
  ⟨rfl, rfl⟩

/-- C1 amended: the `web.rs` pump logs a `Lagged(n)` outcome, skips it and
continues delivering from the next call onward without terminating the
session; the `main.rs` pump instead exits its loop on `Lagged`, ending the
session's outgoing activity. -/
theorem claim1_amended_lag_handling (wok : Nat → Bool) (n : Nat)
    (evs : List RecvEvent) (i : Nat) :
    web_outgoing wok (RecvEvent.lagged n :: evs) i = web_outgoing wok evs i ∧
    main_outgoing wok (RecvEvent.lagged n :: evs) i = [] :=
  ⟨rfl, rfl⟩

/-! ### C4 — case-insensitive stream lookup -/

/-- C4: against a registry holding the single stream `"Cam1"` (whose sender
is index 0), the lookups `"CAM1"`, `"cam1"` and `"Cam1"` all subscribe to the
same broadcaster sender, and `"cam2"` finds no match, so the handler returns
without creating a session. -/
theorem claim4_case_insensitive_lookup :
    subscribe_phase (register_streams ["Cam1"]) "CAM1"
        = SubscribeOutcome.subscribed "Cam1" 0 ∧
    subscribe_phase (register_streams ["Cam1"]) "cam1"
        = SubscribeOutcome.subscribed "Cam1" 0 ∧
    subscribe_phase (register_streams ["Cam1"]) "Cam1"
        = SubscribeOutcome.subscribed "Cam1" 0 ∧
    subscribe_phase (register_streams ["Cam1"]) "cam2"
        = SubscribeOutcome.notFound := by
  refine ⟨?_, ?_, ?_, ?_⟩ <;> decide

/-! ### C5 — publish never blocks, callback always succeeds -/

/-- C5: for every broadcaster state (any subscriber count, including zero,
where `tx.send` returns an error) and every control path of the ingest
callback, the callback returns `Ok(FlowSuccess::Ok)`: publishing is a total
function of the state and its outcome never depends on delivery success. -/
theorem claim5_ingest_callback_always_ok (b : Broadcaster) (o : SampleOutcome) :
    (new_sample b o).2 = Flow.ok := by
  cases o <;> rfl

/-! ### C6 — outbound messages are binary frames -/

/-- C6 counterexample: the claim says no session ever writes a non-binary
message to the viewer. The `web.rs` session, run with no channel events and
all writes succeeding, writes exactly the text message
`"Connected to stream"`, which is not binary. -/
theorem claim6_counterexample_web_text_greeting :
    web_session_msgs (fun _ => true) [] = [Msg.text "Connected to stream"] ∧
    Msg.isBinary (Msg.text "Connected to stream") = false :=
  ⟨rfl, rfl⟩

/-- C6 amended: every message the `main.rs` session writes is a binary frame
payload; the `web.rs` session first writes the single text greeting
`"Connected to stream"` and every later message it writes is a binary frame
payload. -/
theorem claim6_amended_binary_after_greeting (wok : Nat → Bool)
    (evs : List RecvEvent) :
    (∀ m ∈ main_session_msgs wok evs, Msg.isBinary m = true) ∧
    web_session_msgs wok evs
        = Msg.text "Connected to stream" :: web_outgoing wok evs 1 ∧
    (∀ m ∈ web_outgoing wok evs 1, Msg.isBinary m = true) := by
  refine ⟨?_, rfl, ?_⟩
  · intro m hm; exact main_outgoing_all_binary wok evs 0 m hm
  · intro m hm; exact web_outgoing_all_binary wok evs 1 m hm

/-- C6 amended, witness: the amended statement applied to the session that
receives the single frame `[2]`. -/
theorem claim6_amended_binary_after_greeting_witness :
    Msg.isBinary (Msg.binary [2]) = true := by
  have h := claim6_amended_binary_after_greeting (fun _ => true)
    [RecvEvent.frame [2]]
  exact h.1 (Msg.binary [2]) (by simp [main_session_msgs, main_outgoing])

/-! ### C10 — the two handler drafts are not equivalent -/

/-- C10 counterexample: with no channel events at all and every transport
write succeeding, the `web.rs` session writes the text greeting while the
`main.rs` session writes nothing, so the two drafts do not produce the same
outbound message sequence. -/
theorem claim10_counterexample_sessions_differ :
    web_session_msgs (fun _ => true) [] ≠ main_session_msgs (fun _ => true) [] := by
  simp [web_session_msgs, main_session_msgs, web_outgoing, main_outgoing]

/-- C10 amended: the drafts differ by the initial text greeting and by lag
handling. On every channel-event sequence containing no `Lagged` outcome,
the `web.rs` session's outbound trace is exactly the text greeting followed
by the `main.rs` session's trace (with the transport write oracle shifted by
the one greeting write), and the two incoming monitors are the same
function. -/
theorem claim10_amended_equivalent_without_lag (wok : Nat → Bool)
    (evs : List RecvEvent)
    (h : evs.all (fun e => !(RecvEvent.isLagged e)) = true) :
    web_session_msgs wok evs
        = Msg.text "Connected to stream" ::
            main_session_msgs (fun j => wok (j + 1)) evs ∧
    main_incoming = web_incoming := by
  constructor
  · show Msg.text "Connected to stream" :: web_outgoing wok evs 1 = _
    rw [web_outgoing_eq_main_outgoing wok evs 1 h]
    show _ = Msg.text "Connected to stream" ::
      main_outgoing (fun j => wok (j + 1)) evs 0
    rw [← main_outgoing_shift wok evs 0]
  · funext l
    induction l with
    | nil => rfl
    | cons x rest ih => cases x <;> simp [main_incoming, web_incoming, ih]

/-- C10 amended, witness: the amended statement applied to the session that
receives the single frame `[3]` with all writes succeeding. -/
theorem claim10_amended_equivalent_without_lag_witness :
    web_session_msgs (fun _ => true) [RecvEvent.frame [3]]
        = Msg.text "Connected to stream" ::
            main_session_msgs (fun _ => true) [RecvEvent.frame [3]] := by
  have h := claim10_amended_equivalent_without_lag (fun _ => true)
    [RecvEvent.frame [3]] (by rfl)
  exact h.1

/-! ### C2, C3 — subscription semantics of the broadcast ring -/

/-- With at least one receiver, `send` stores the frame at the end of the
history and changes nothing else. -/
theorem send_store (b : Broadcaster) (f : Frame) (h : b.receivers ≠ 0) :
    (send b f).1 = { b with history := b.history ++ [f] } := by
  unfold send
  rw [if_neg h]

/-- With at least one receiver, publishing a frame list appends it to the
history and changes nothing else. -/
theorem publishAll_store (fs : List Frame) :
    ∀ (b : Broadcaster), b.receivers ≠ 0 →
      publishAll b fs = { b with history := b.history ++ fs } := by
  induction fs with
  | nil => intro b _; simp [publishAll]
  | cons f t ih =>
    intro b hb
    show publishAll (send b f).1 t = _
    rw [send_store b f hb,
      ih { b with history := b.history ++ [f] } hb]
    simp

/-- A cursor that is behind but within the ring reads the frame it points
at. -/
theorem recv_frame (b : Broadcaster) (c : Nat) (hlt : c < b.history.length)
    (hlag : ¬ b.capacity < b.history.length - c) :
    recv b c = (RecvOut.frame (b.history.getD c []), c + 1) := by
  unfold recv
  rw [if_pos hlt, if_neg hlag]

/-- C2: a subscription taken on any broadcaster with positive capacity is
positioned at "no backlog": after a single following publish of `F` (with no
intervening eviction possible), its first `recv` yields exactly `F` and
advances the cursor. -/
theorem claim2_fresh_subscription_first_recv (b : Broadcaster) (f : Frame)
    (hcap : 0 < b.capacity) :
    recv (send (subscribe b).1 f).1 (subscribe b).2
      = (RecvOut.frame f, (subscribe b).2 + 1) := by
  have h1 : (send (subscribe b).1 f).1
      = { b with history := b.history ++ [f], receivers := b.receivers + 1 } :=
    rfl
  have h2 : (subscribe b).2 = b.history.length := rfl
  rw [h1, h2]
  rw [recv_frame _ _ ?hlt ?hlag]
  case hlt =>
    show b.history.length < (b.history ++ [f]).length
    simp
  case hlag =>
    show ¬ b.capacity < (b.history ++ [f]).length - b.history.length
    simp only [List.length_append, List.length_cons, List.length_nil]
    omega
  have h3 : ({ b with history := b.history ++ [f], receivers := b.receivers + 1 } : Broadcaster).history.getD
      b.history.length [] = f := by
    show (b.history ++ [f]).getD b.history.length [] = f
    rw [List.getD_append_right b.history [f] [] b.history.length (le_refl _)]
    simp
  rw [h3]

/-- C2 witness: the fresh channel of capacity 100 from `main.rs` line 53,
one subscriber, then one published frame `[9]`. -/
theorem claim2_fresh_subscription_first_recv_witness :
    recv (send (subscribe ⟨100, [], 0, false⟩).1 [9]).1
        (subscribe (⟨100, [], 0, false⟩ : Broadcaster)).2
      = (RecvOut.frame [9], 1) := by
  have h := claim2_fresh_subscription_first_recv ⟨100, [], 0, false⟩ [9]
    (by decide)
  simpa using h

/-- A receiver whose cursor lags by at most `capacity` reads the pending
suffix of the history frame by frame, in order. -/
theorem recvList_no_eviction (b : Broadcaster) :
    ∀ (fs H : List Frame), b.history = H ++ fs → fs.length ≤ b.capacity →
      recvList b H.length fs.length = fs.map RecvOut.frame := by
  intro fs
  induction fs with
  | nil => intro H _ _; rfl
  | cons f t ih =>
    intro H hb hlen
    have hlt : H.length < b.history.length := by
      rw [hb]; simp only [List.length_append, List.length_cons]; omega
    have hnl : ¬ b.capacity < b.history.length - H.length := by
      rw [hb]; simp only [List.length_append, List.length_cons] at hlen ⊢; omega
    have hget : b.history.getD H.length [] = f := by
      rw [hb, List.getD_append_right H (f :: t) [] H.length (le_refl _)]
      simp
    have hrecv : recv b H.length = (RecvOut.frame f, H.length + 1) := by
      unfold recv
      rw [if_pos hlt, if_neg hnl, hget]
    show (recv b H.length).1 :: recvList b (recv b H.length).2 t.length = _
    rw [hrecv]
    have hc : H.length + 1 = (H ++ [f]).length := by simp
    have hb' : b.history = (H ++ [f]) ++ t := by rw [hb]; simp
    rw [List.map_cons]
    exact congrArg (RecvOut.frame f :: ·)
      (hc ▸ ih (H ++ [f]) hb' (Nat.le_of_succ_le hlen))

/-- C3: a subscriber that subscribes, then sees `N` frames published with
`N` at most the ring capacity (so none is evicted), and calls `recv` `N`
times receives exactly those frames in publish order — none duplicated,
reordered or dropped. -/
theorem claim3_in_order_delivery (b : Broadcaster) (fs : List Frame)
    (hlen : fs.length ≤ b.capacity) :
    recvList (publishAll (subscribe b).1 fs) (subscribe b).2 fs.length
      = fs.map RecvOut.frame := by
  rw [publishAll_store fs (subscribe b).1 (Nat.succ_ne_zero _)]
  exact recvList_no_eviction _ fs b.history rfl hlen

/-- C3 witness: the capacity-100 channel from `main.rs` line 53, one
subscriber, three published frames. -/
theorem claim3_in_order_delivery_witness :
    recvList (publishAll (subscribe ⟨100, [], 0, false⟩).1 [[1], [2], [3]])
        (subscribe (⟨100, [], 0, false⟩ : Broadcaster)).2 3
      = [RecvOut.frame [1], RecvOut.frame [2], RecvOut.frame [3]] := by
  have h := claim3_in_order_delivery ⟨100, [], 0, false⟩ [[1], [2], [3]]
    (by decide)
  simpa using h

/-! ### C7 — session teardown does not cancel the losing task -/

/-- C7 counterexample: the claim says that when one of the two session
activities finishes first the other is cancelled and no task outlives the
session. Concretely: the incoming monitor reads an error and finishes, the
parent's `select!` completes and the session function returns — and the
outgoing pump, neither cancelled nor finished, still takes a step afterwards
and writes a frame to the transport. -/
theorem claim7_counterexample_task_outlives_session :
    SessStep (fun _ => true)
        ⟨[false], [RecvEvent.frame [7]], 0, [], false, false, false⟩
        ⟨[], [RecvEvent.frame [7]], 0, [], true, false, false⟩ ∧
    SessStep (fun _ => true)
        ⟨[], [RecvEvent.frame [7]], 0, [], true, false, false⟩
        ⟨[], [RecvEvent.frame [7]], 0, [], true, false, true⟩ ∧
    (⟨[], [RecvEvent.frame [7]], 0, [], true, false, true⟩ : SessState).returned
        = true ∧
    (⟨[], [RecvEvent.frame [7]], 0, [], true, false, true⟩ : SessState).outgoingDone
        = false ∧
    SessStep (fun _ => true)
        ⟨[], [RecvEvent.frame [7]], 0, [], true, false, true⟩
        ⟨[], [], 1, [Msg.binary [7]], true, false, true⟩ ∧
    (⟨[], [], 1, [Msg.binary [7]], true, false, true⟩ : SessState).sent ≠ [] := by
  refine ⟨?_, ?_, rfl, rfl, ?_, by decide⟩
  · exact SessStep.incoming_err _ _ rfl rfl
  · exact SessStep.parent_return _ rfl (Or.inl rfl)
  · exact SessStep.outgoing_frame _ [7] _ rfl rfl

/-- C7 amended: whichever activity finishes first makes the parent's
`select!` complete and the session function return, but the return step
cancels nothing — it leaves both tasks' loop states, done flags and written
messages untouched — and a still-running outgoing pump remains able to step
(it is detached, continuing until its own loop exits). -/
theorem claim7_amended_return_detaches_tasks (wok : Nat → Bool) :
    (∀ s s', SessStep wok s s' → s.returned = false → s'.returned = true →
      s'.inEvents = s.inEvents ∧ s'.recvEvents = s.recvEvents ∧
      s'.incomingDone = s.incomingDone ∧ s'.outgoingDone = s.outgoingDone ∧
      s'.sent = s.sent) ∧
    (∀ s f rest, s.returned = true → s.outgoingDone = false →
      s.recvEvents = RecvEvent.frame f :: rest →
      ∃ s', SessStep wok s s' ∧ s'.sent = s.sent ++ [Msg.binary f]) := by
  constructor
  · intro s s' hstep hr hr'
    cases hstep with
    | incoming_ok rest h1 h2 => exact absurd (hr.symm.trans hr') Bool.false_ne_true
    | incoming_err rest h1 h2 => exact absurd (hr.symm.trans hr') Bool.false_ne_true
    | incoming_end h1 h2 => exact absurd (hr.symm.trans hr') Bool.false_ne_true
    | outgoing_frame f rest h1 h2 => exact absurd (hr.symm.trans hr') Bool.false_ne_true
    | outgoing_lagged n rest h1 h2 => exact absurd (hr.symm.trans hr') Bool.false_ne_true
    | outgoing_closed rest h1 h2 => exact absurd (hr.symm.trans hr') Bool.false_ne_true
    | parent_return h1 h2 => exact ⟨rfl, rfl, rfl, rfl, rfl⟩
  · intro s f rest _ h2 h3
    exact ⟨_, SessStep.outgoing_frame s f rest h2 h3, rfl⟩

/-- C7 amended, witness: in a state where the session has already returned
and the pump is still live with a pending frame, the pump steps and writes
the frame. -/
theorem claim7_amended_return_detaches_tasks_witness :
    ∃ s', SessStep (fun _ => true)
        ⟨[], [RecvEvent.frame [5]], 0, [], true, false, true⟩ s' ∧
      s'.sent = [Msg.binary [5]] := by
  obtain ⟨s', h1, h2⟩ := (claim7_amended_return_detaches_tasks (fun _ => true)).2
    ⟨[], [RecvEvent.frame [5]], 0, [], true, false, true⟩ [5] [] rfl rfl rfl
  exact ⟨s', h1, by simpa using h2⟩

/-! ### C8, C9 — registry invariants -/

/-- Inserting an exactly-present key replaces its value and leaves the key
list unchanged. -/
theorem mapInsert_keys_mem (m : ClientsMap) (k : String) (v : List Nat)
    (h : m.any (fun kv => kv.1 == k) = true) :
    (mapInsert m k v).map (fun kv => kv.1) = m.map (fun kv => kv.1) := by
  unfold mapInsert
  rw [if_pos h, List.map_map]
  apply List.map_congr_left
  intro kv _
  cases hk : (kv.1 == k) with
  | true =>
    simp only [Function.comp_apply, hk, if_true]
    exact (eq_of_beq hk).symm
  | false =>
    have hne : kv.1 ≠ k := by simpa using hk
    simp [Function.comp_apply, hne]

/-- Inserting an exactly-absent key appends it to the key list. -/
theorem mapInsert_keys_new (m : ClientsMap) (k : String) (v : List Nat)
    (h : m.any (fun kv => kv.1 == k) = false) :
    (mapInsert m k v).map (fun kv => kv.1) = m.map (fun kv => kv.1) ++ [k] := by
  unfold mapInsert
  rw [if_neg (by simp [h]), List.map_append]
  rfl

/-- `mapInsert` preserves exact-key uniqueness. -/
theorem mapInsert_keys_nodup (m : ClientsMap) (k : String) (v : List Nat)
    (h : (m.map (fun kv => kv.1)).Nodup) :
    ((mapInsert m k v).map (fun kv => kv.1)).Nodup := by
  cases hmem : m.any (fun kv => kv.1 == k) with
  | true => rw [mapInsert_keys_mem m k v hmem]; exact h
  | false =>
    rw [mapInsert_keys_new m k v hmem]
    refine List.Nodup.append h (List.nodup_singleton k) ?_
    rw [List.disjoint_singleton]
    intro hk
    obtain ⟨kv, hkv, hk1⟩ := List.mem_map.mp hk
    exact (List.any_eq_false.mp hmem kv hkv) (by simp [hk1])

/-- The registration fold keeps exact keys unique. -/
theorem register_fold_keys_nodup (names : List String) :
    ∀ acc : ClientsMap × Nat,
      ((acc.1).map (fun kv => kv.1)).Nodup →
      (((names.foldl (fun (a : ClientsMap × Nat) n =>
          (mapInsert a.1 n [a.2], a.2 + 1)) acc).1).map (fun kv => kv.1)).Nodup := by
  induction names with
  | nil => intro acc h; exact h
  | cons n t ih =>
    intro acc h
    exact ih (mapInsert acc.1 n [acc.2], acc.2 + 1) (mapInsert_keys_nodup _ _ _ h)

/-- C8 counterexample: the claim says no two registered streams normalize to
the same lowercase form (a colliding registration being rejected or
replacing the earlier entry). The environment can hold the two distinct
variables `CCTV_Cam1` and `CCTV_CAM1`; registering them yields a registry
holding BOTH entries, whose names are distinct yet share one lowercase form,
and a case-insensitive lookup for that form then has two matching keys, not
at most one. -/
theorem claim8_counterexample_lowercase_collision :
    (register_streams (envStreamNames
        [("CCTV_Cam1", "rtsp1"), ("CCTV_CAM1", "rtsp2")])).map (fun kv => kv.1)
      = ["CCTV_Cam1", "CCTV_CAM1"] ∧
    toLowerStr "CCTV_Cam1" = toLowerStr "CCTV_CAM1" ∧
    ("CCTV_Cam1" : String) ≠ "CCTV_CAM1" ∧
    ((register_streams (envStreamNames
        [("CCTV_Cam1", "rtsp1"), ("CCTV_CAM1", "rtsp2")])).map
      (fun kv => kv.1)).countP
        (fun key => toLowerStr key == toLowerStr "cctv_cam1") = 2 := by
  refine ⟨by decide, by decide, by decide, by decide⟩

/-- C8 amended: within every reachable registry no two entries carry the
same EXACT name — an exactly-colliding registration replaces the earlier
entry (`HashMap::insert`) — but names that collide only under lowercase
normalization coexist, so case-insensitive lookup can meet several matches
and simply uses the first key found. -/
theorem claim8_amended_exact_names_unique (names : List String) :
    ((register_streams names).map (fun kv => kv.1)).Nodup :=
  register_fold_keys_nodup names ([], 0) (by simp)

/-- `mapInsert` with a singleton value keeps every stored sender vector a
singleton. -/
theorem mapInsert_values_singleton (m : ClientsMap) (k : String) (i : Nat)
    (h : ∀ kv ∈ m, kv.2.length = 1) :
    ∀ kv ∈ mapInsert m k [i], kv.2.length = 1 := by
  intro kv hkv
  unfold mapInsert at hkv
  cases hmem : m.any (fun kv => kv.1 == k) with
  | true =>
    rw [if_pos hmem] at hkv
    obtain ⟨kv', hkv', heq⟩ := List.mem_map.mp hkv
    cases hk : (kv'.1 == k) with
    | true =>
      simp only [hk, if_true] at heq
      rw [← heq]
      rfl
    | false =>
      simp only [hk] at heq
      simp only [Bool.false_eq_true, if_false] at heq
      rw [← heq]
      exact h kv' hkv'
  | false =>
    rw [if_neg (by simp [hmem])] at hkv
    rcases List.mem_append.mp hkv with h1 | h1
    · exact h kv h1
    · rw [List.mem_singleton.mp h1]
      rfl

/-- The registration fold stores only singleton sender vectors. -/
theorem register_fold_values_singleton (names : List String) :
    ∀ acc : ClientsMap × Nat, (∀ kv ∈ acc.1, kv.2.length = 1) →
      ∀ kv ∈ (names.foldl (fun (a : ClientsMap × Nat) n =>
          (mapInsert a.1 n [a.2], a.2 + 1)) acc).1, kv.2.length = 1 := by
  induction names with
  | nil => intro acc h; exact h
  | cons n t ih =>
    intro acc h
    exact ih (mapInsert acc.1 n [acc.2], acc.2 + 1)
      (mapInsert_values_singleton _ _ _ h)

/-- A key present in the key list is found by `clients_lock.get`. -/
theorem lookupExact_of_key_mem (m : ClientsMap) (key : String)
    (h : key ∈ m.map (fun kv => kv.1)) :
    ∃ kv, kv ∈ m ∧ lookupExact m key = some kv.2 := by
  obtain ⟨kv0, hkv0, hk0⟩ := List.mem_map.mp h
  have hsome : (m.find? (fun kv => kv.1 == key)).isSome = true := by
    rw [List.find?_isSome]
    exact ⟨kv0, hkv0, by simp [hk0]⟩
  obtain ⟨kv1, hfind⟩ := Option.isSome_iff_exists.mp hsome
  exact ⟨kv1, List.mem_of_find?_eq_some hfind, by simp [lookupExact, hfind]⟩

/-- C9: in every reachable clients registry each stream name maps to a
sender vector of length exactly one, and the lookup phase never takes either
rejection branch for a found key (in particular the `senders.first()`-empty
branch is unreachable): every query ends subscribed or not-found. -/
theorem claim9_singleton_senders_and_unreachable_branch
    (names : List String) (q : String) :
    (register_streams names).all (fun kv => kv.2.length == 1) = true ∧
    (subscribe_phase (register_streams names) q).isSenderMissing = false := by
  have hsing : ∀ kv ∈ register_streams names, kv.2.length = 1 :=
    register_fold_values_singleton names ([], 0) (by simp)
  constructor
  · rw [List.all_eq_true]
    intro kv hkv
    simp [hsing kv hkv]
  · cases hfind : find_stream_key (register_streams names) q with
    | none => simp [subscribe_phase, hfind, SubscribeOutcome.isSenderMissing]
    | some key =>
      have hmem : key ∈ (register_streams names).map (fun kv => kv.1) :=
        List.mem_of_find?_eq_some hfind
      obtain ⟨kv1, hkv1, hlook⟩ := lookupExact_of_key_mem _ key hmem
      obtain ⟨a, ha⟩ := List.length_eq_one.mp (hsing kv1 hkv1)
      simp [subscribe_phase, hfind, hlook, ha, SubscribeOutcome.isSenderMissing]

end RustNvr
